import Mathlib

/-!
Verification development for the clearskies-docker-compose examples.

The repository declares REST resources (models, columns, handler
configurations) against the clearskies framework and tests them.  We embed
the repository's own code (`BusinessEmail`, the `User` column
configuration, the handler configurations of the example apps) directly,
and model the framework engine they run on from the specification, since
the framework itself is not part of the repository sources.
-/

set_option autoImplicit false

namespace ClearSkies

/-- A JSON-ish field value as it appears in request bodies, stored rows and
responses.  `null` is Python's `None`. -/
inductive Value where
  | null
  | str (s : String)
  | int (n : Int)
  deriving DecidableEq, Repr

/-- A field mapping (Python `dict` built by literal/merge), embedded as an
ordered association list, first occurrence of a key wins on reads. -/
abbrev Data := List (String × Value)

/-- Read a key (Python `data[k]` / `k in data`), first occurrence. -/
def getVal (d : Data) (k : String) : Option Value :=
  match d with
  | [] => none
  | p :: rest => if p.1 = k then some p.2 else getVal rest k

/-- Key membership, Python `k in data`. -/
def hasKey (d : Data) (k : String) : Bool :=
  match d with
  | [] => false
  | p :: rest => p.1 = k || hasKey rest k

/-- Python dict assignment `d[k] = v`: update the first occurrence in
place, append at the end when the key is new. -/
def setVal (d : Data) (k : String) (v : Value) : Data :=
  match d with
  | [] => [(k, v)]
  | p :: rest => if p.1 = k then (k, v) :: rest else p :: setVal rest k v

/-- Python dict merge `{**a, **b}`: keys of `a` keep their position, values
from `b` override, new keys of `b` are appended in order. -/
def mergeData (a b : Data) : Data :=
  b.foldl (fun acc p => setVal acc p.1 p.2) a

/-- The value `mergeData a b` gives key `k` when it comes from `b`: the
last occurrence in `b` (later `setVal` calls override earlier ones). -/
def lastVal (b : Data) (k : String) : Option Value :=
  match b with
  | [] => none
  | p :: rest => (lastVal rest k).orElse (fun _ => if p.1 = k then some p.2 else none)

/-! ## The `requests` collaborator and the lookup response

`BusinessEmail.pre_save` calls
`requests.get('https://randomuser.me/api/', params={'seed': email})`
and reads `results[0].location.{city,state,country}` and
`results[0].dob.age` from the JSON body.  We embed the injected `requests`
object as a function from the `seed` parameter to the fields the hook
extracts. -/

structure ApiLocation where
  city : String
  state : String
  country : String
  deriving DecidableEq, Repr

structure ApiResult where
  location : ApiLocation
  age : Int
  deriving DecidableEq, Repr

/-- The injected `requests` collaborator: seed parameter to first result. -/
def Requests := String → ApiResult

/-! ## BusinessEmail (src/example_2_business_logic/users/business_email.py)

The base `Email` column class lives in the clearskies framework, outside
this repository; its checks are modelled from the spec below.  The
subclass methods are embedded from the source. -/

/-- Modelled from the spec: the framework's base `Email` column
`input_error_for_value`, missing from the repository sources.  The spec
says `email` "validates RFC-shape" and that values must be of the column's
type; the repository's own test pins the two messages:
a non-string value gives `Value must be a string for email`, a string that
is not shaped like an email gives `Invalid email address`.  RFC shape is
modelled as one `@` separating a non-empty local part from a non-empty
domain that contains a dot. -/
def splitOnChar (c : Char) (l : List Char) : List (List Char) :=
  match l with
  | [] => [[]]
  | x :: xs =>
    match splitOnChar c xs with
    | [] => [[]]
    | h :: t => if x = c then [] :: h :: t else (x :: h) :: t

def emailShapeOk (s : String) : Bool :=
  match splitOnChar '@' s.data with
  | [local_, domain] => local_ ≠ [] && domain ≠ [] && domain.contains '.'
  | _ => false

/-- Modelled from the spec: base `Email.input_error_for_value` (framework
code, not in the repository). -/
def emailInputErrorForValue (v : Value) : String :=
  match v with
  | .str s => if emailShapeOk s then "" else "Invalid email address"
  | _ => "Value must be a string for email"

/-- Python `value[-12:]`: the last 12 characters (whole string if shorter). -/
def lastTwelve (s : String) : String :=
  ⟨s.data.drop (s.data.length - 12)⟩

/-- Python `str.strip()`: remove leading and trailing whitespace. -/
def pyStrip (s : String) : String :=
  ⟨((s.data.dropWhile Char.isWhitespace).reverse.dropWhile Char.isWhitespace).reverse⟩

/-- `BusinessEmail.input_error_for_value`: defer to the base email check,
then reject addresses ending in `@example.com`. -/
def businessEmailInputErrorForValue (v : Value) : String :=
  let error := emailInputErrorForValue v
  if error ≠ "" then error
  else
    match v with
    | .str s => if lastTwelve s = "@example.com" then "Invalid email domain" else ""
    | _ => ""

/-- Modelled from the spec: the base `Email.check_search_value` (framework
code, not in the repository) applies the column's value check to the search
value; `BusinessEmail` does not override it, so the subclass's
`input_error_for_value` — domain rule included — is what runs. -/
def businessEmailCheckSearchValue (v : Value) : String :=
  businessEmailInputErrorForValue v

/-- `BusinessEmail.pre_save`, embedded with its outbound calls made
explicit: returns the resulting data and the list of lookup seeds
requested from the `requests` collaborator, in order.  The column's
configured name is `name_`.  `none` is the case where the stored value is
not a string, on which the source's `data[self.name].strip()` raises. -/
def businessEmailPreSaveT (requests : Requests) (name_ : String) (data : Data) :
    Option (Data × List String) :=
  if ¬ hasKey data name_ then some (data, [])
  else
    match getVal data name_ with
    | some (.str raw) =>
      let email := pyStrip raw
      if email = "" then
        some (mergeData data
          [("city", .str ""), ("state", .str ""), ("country", .str ""), ("age", .str "")], [])
      else
        let responseData := requests email
        some (mergeData data
          [("city", .str responseData.location.city),
           ("state", .str responseData.location.state),
           ("country", .str responseData.location.country),
           ("age", .int responseData.age)], [email])
    | _ => none

/-! ## The request-handling engine

The clearskies framework itself is not part of the repository, so the
engine is modelled from the specification: column metadata with lifecycle
hooks, an in-memory storage backend, a pluggable authentication gate, and
the resource-handler pipeline
ROUTE_RESOLUTION → AUTHENTICATE → PARSE_INPUT → VALIDATE → PRE_SAVE →
PERSIST → SERIALIZE → RESPOND with the specified short circuits. -/

/-- Which kind of write a request performs. -/
inductive WriteKind where
  | create
  | update
  deriving DecidableEq, Repr

/-- Modelled from the spec: the per-model column metadata (framework code,
not in the repository).  `validate` is the column's accumulated input
requirements plus `input_error_for_value` (empty string means valid; the
argument is `none` when the column is absent from the payload).
`preSaveHook` is the column's `pre_save`; `none` models a hook failure.
`stampOnCreate`/`stampOnWrite` mark the engine-stamped `created`/`updated`
timestamp columns. -/
structure Column where
  name : String
  validate : Option Value → String
  preSaveHook : Data → Option Data
  stampOnCreate : Bool
  stampOnWrite : Bool

/-- Modelled from the spec: authentication strategies. -/
inductive Auth where
  | publicAuth
  | secretBearer (secret : String)

/-- Modelled from the spec: `public` always succeeds; `secret_bearer`
compares the request token against the configured secret and does not
distinguish a missing token from a wrong one. -/
def authOk (a : Auth) (token : Option String) : Bool :=
  match a with
  | .publicAuth => true
  | .secretBearer secret =>
    match token with
    | some t => t = secret
    | none => false

/-- Modelled from the spec: handler configuration, the caller-supplied
dictionary of the example apps. -/
structure Config where
  columns : List Column
  readableColumns : List String
  writeableColumns : List String
  searchableColumns : List String
  defaultSortColumn : String
  authentication : Auth
  defaultLimit : Nat

/-- Modelled from the spec: the in-memory storage backend state — rows
keyed by id plus the next id to assign. -/
structure Store where
  rows : List (Nat × Data)
  nextId : Nat
  deriving DecidableEq, Repr

/-- One observable storage-backend call. -/
inductive BackendOp where
  | queryOp
  | readOp (id : Nat)
  | createOp (d : Data)
  | updateOp (id : Nat) (d : Data)
  | deleteOp (id : Nat)
  deriving DecidableEq, Repr

/-- Pagination block of a list response. -/
structure Pagination where
  numberResults : Nat
  start : Nat
  limit : Nat
  deriving DecidableEq, Repr

/-- The data part of a successful response. -/
inductive RespBody where
  | single (d : Data)
  | many (ds : List Data) (pg : Pagination)
  | empty
  deriving DecidableEq, Repr

/-- Modelled from the spec: the response envelope statuses. -/
inductive Response where
  | success (b : RespBody)
  | inputErrors (errs : List (String × String))
  | notFound
  | unauthenticated
  | failure
  deriving DecidableEq, Repr

/-- HTTP method of a request. -/
inductive Method where
  | get
  | post
  | put
  | patch
  | deleteM
  deriving DecidableEq, Repr

/-- Modelled from the spec: the request envelope, with the pieces the
engine consumes — method, optional id path segment, `start`/`limit` query
parameters, JSON body, and bearer token. -/
structure Request where
  method : Method
  routeId : Option Nat
  queryStart : Option Nat
  queryLimit : Option Nat
  body : Data
  authToken : Option String

/-- The operation a request resolves to. -/
inductive Operation where
  | listOp
  | fetchOne (id : Nat)
  | createOp
  | updateOp (id : Nat)
  | deleteOp (id : Nat)
  deriving DecidableEq, Repr

/-- Modelled from the spec: routing — HTTP method plus presence of an id
segment select the operation. -/
def routeOf (req : Request) : Option Operation :=
  match req.method, req.routeId with
  | .get, none => some .listOp
  | .get, some id => some (.fetchOne id)
  | .post, none => some .createOp
  | .put, some id => some (.updateOp id)
  | .patch, some id => some (.updateOp id)
  | .deleteM, some id => some (.deleteOp id)
  | _, _ => none

/-- The error a column's validators give a payload, per write kind: on
create an absent column is still validated (so `Required` can fire); on
update an absent column is skipped entirely — its value is not replaced,
so there is nothing to check. -/
def columnError (kind : WriteKind) (c : Column) (body : Data) : String :=
  match getVal body c.name with
  | some v => c.validate (some v)
  | none =>
    match kind with
    | .create => c.validate none
    | .update => ""

/-- Modelled from the spec: the VALIDATE step — walk the writeable columns
in registration order and accumulate every non-empty error into a single
column-name → message list. -/
def validateBody (kind : WriteKind) (cfg : Config) (body : Data) :
    List (String × String) :=
  cfg.columns.foldr
    (fun c acc =>
      if cfg.writeableColumns.contains c.name then
        if columnError kind c body = "" then acc
        else (c.name, columnError kind c body) :: acc
      else acc)
    []

/-- Modelled from the spec: PARSE_INPUT — only writeable columns are
accepted from the body, unknown fields are dropped silently. -/
def parseBody (writeable : List String) (body : Data) : Data :=
  body.filter (fun p => writeable.contains p.1)

/-- Modelled from the spec: run every column's `pre_save` in registration
order, later hooks seeing earlier hooks' mutations; a hook failure aborts. -/
def runHooks (cols : List Column) (d : Data) : Option Data :=
  cols.foldl (fun acc c => acc.bind c.preSaveHook) (some d)

/-- Modelled from the spec: stamp `created`/`updated` columns from the
injected clock — at create time for `stampOnCreate` columns, at every
write for `stampOnWrite` columns. -/
def applyStamps (kind : WriteKind) (now : String) (cols : List Column) (d : Data) : Data :=
  cols.foldl
    (fun acc c =>
      if (kind = .create && c.stampOnCreate) || c.stampOnWrite then
        setVal acc c.name (.str now)
      else acc)
    d

/-- Look a row up by id in the backend. -/
def findRow (store : Store) (id : Nat) : Option Data :=
  (store.rows.find? (fun r => r.1 = id)).map Prod.snd

/-- Serialize one row: identity column first, then the readable columns in
registration order, absent fields as `null`. -/
def serializeRow (cfg : Config) (id : Nat) (row : Data) : Data :=
  ("id", .int id) :: cfg.readableColumns.map (fun c => (c, (getVal row c).getD .null))

/-- Sort key of a row under the handler's default sort column. -/
def valueSortKey (v : Option Value) : String :=
  match v with
  | some (.str s) => s
  | some (.int n) => toString n
  | _ => ""

/-- Row comparison: default sort column ascending, ties broken by id
ascending for determinism. -/
def rowLe (cfg : Config) (a b : Nat × Data) : Bool :=
  let ka := valueSortKey (getVal a.2 cfg.defaultSortColumn)
  let kb := valueSortKey (getVal b.2 cfg.defaultSortColumn)
  if ka = kb then a.1 ≤ b.1 else decide (ka < kb)

/-- Insertion step of the backend's sort. -/
def insertRow (cfg : Config) (r : Nat × Data) (rows : List (Nat × Data)) :
    List (Nat × Data) :=
  match rows with
  | [] => [r]
  | x :: xs => if rowLe cfg r x then r :: x :: xs else x :: insertRow cfg r xs

/-- Modelled from the spec: the backend's ordering contract for queries. -/
def sortRows (cfg : Config) (rows : List (Nat × Data)) : List (Nat × Data) :=
  rows.foldr (insertRow cfg) []

/-- What one handled request produces: the backend state after it, the
response envelope, and the trace of backend calls it made. -/
structure HandlerResult where
  store : Store
  response : Response
  trace : List BackendOp
  deriving Repr

/-- Modelled from the spec: the resource-handler pipeline.  Routing
resolves the operation (unknown route → not-found); the authentication
gate runs before any backend access; writes validate before any mutation
and abort whole on any error; update merges the hook/stamp output over the
existing row (columns it does not mention keep their value); list applies
default start 0 and the configured default limit. -/
def handleRequest (cfg : Config) (store : Store) (req : Request) (now : String) :
    HandlerResult :=
  match routeOf req with
  | none => ⟨store, .notFound, []⟩
  | some op =>
    if authOk cfg.authentication req.authToken then
      match op with
      | .listOp =>
        let start := req.queryStart.getD 0
        let limit := req.queryLimit.getD cfg.defaultLimit
        let page := ((sortRows cfg store.rows).drop start).take limit
        ⟨store,
         .success (.many (page.map (fun r => serializeRow cfg r.1 r.2))
           ⟨page.length, start, limit⟩),
         [.queryOp]⟩
      | .fetchOne id =>
        match findRow store id with
        | none => ⟨store, .notFound, [.readOp id]⟩
        | some row => ⟨store, .success (.single (serializeRow cfg id row)), [.readOp id]⟩
      | .createOp =>
        let errs := validateBody .create cfg req.body
        if errs = [] then
          match runHooks cfg.columns (parseBody cfg.writeableColumns req.body) with
          | none => ⟨store, .failure, []⟩
          | some hooked =>
            let final := applyStamps .create now cfg.columns hooked
            let id := store.nextId
            ⟨⟨store.rows ++ [(id, final)], id + 1⟩,
             .success (.single (serializeRow cfg id final)),
             [.createOp final]⟩
        else ⟨store, .inputErrors errs, []⟩
      | .updateOp id =>
        match findRow store id with
        | none => ⟨store, .notFound, [.readOp id]⟩
        | some row =>
          let errs := validateBody .update cfg req.body
          if errs = [] then
            match runHooks cfg.columns (parseBody cfg.writeableColumns req.body) with
            | none => ⟨store, .failure, [.readOp id]⟩
            | some hooked =>
              let final := applyStamps .update now cfg.columns hooked
              let newRow := mergeData row final
              ⟨⟨store.rows.map (fun r => if r.1 = id then (id, newRow) else r), store.nextId⟩,
               .success (.single (serializeRow cfg id newRow)),
               [.readOp id, .updateOp id final]⟩
          else ⟨store, .inputErrors errs, [.readOp id]⟩
      | .deleteOp id =>
        match findRow store id with
        | none => ⟨store, .notFound, [.readOp id]⟩
        | some _ =>
          ⟨⟨store.rows.filter (fun r => r.1 ≠ id), store.nextId⟩,
           .success .empty,
           [.readOp id, .deleteOp id]⟩
    else ⟨store, .unauthenticated, []⟩

/-! ## Input requirements and built-in column kinds

The `Required`, `MaximumLength` requirements and the `string`/`integer`
column checks live in the framework; their checks are modelled from the
spec (messages pinned only where the repository's tests pin them). -/

/-- First non-empty error of a list of validator results. -/
def firstError (es : List String) : String :=
  match es with
  | [] => ""
  | e :: rest => if e = "" then firstError rest else e

/-- Modelled from the spec: the `Required` input requirement (framework
code, not in the repository) — absent, null or blank-string values error. -/
def requiredError (colName : String) (ov : Option Value) : String :=
  match ov with
  | none => colName ++ " is required"
  | some .null => colName ++ " is required"
  | some (.str s) => if s = "" then colName ++ " is required" else ""
  | some _ => ""

/-- Modelled from the spec: the `MaximumLength` input requirement
(framework code, not in the repository) — string values longer than the
configured length error. -/
def maximumLengthError (n : Nat) (ov : Option Value) : String :=
  match ov with
  | some (.str s) => if s.length > n then "exceeds maximum length" else ""
  | _ => ""

/-- Modelled from the spec: the `string` column type check (framework
code, not in the repository). -/
def stringTypeError (ov : Option Value) : String :=
  match ov with
  | some (.int _) => "value must be a string"
  | _ => ""

/-- Modelled from the spec: the `integer` column type check (framework
code, not in the repository). -/
def integerTypeError (ov : Option Value) : String :=
  match ov with
  | some (.str _) => "value must be an integer"
  | some .null => "value must be an integer"
  | _ => ""

/-- A column whose hook is the identity (plain `string`/`integer`
columns). -/
def plainColumn (colName : String) (validate : Option Value → String) : Column :=
  ⟨colName, validate, fun d => some d, false, false⟩

/-- The `created('created')` column: engine-stamped at create time, never
client-writeable. -/
def createdColumn (colName : String) : Column :=
  ⟨colName, fun _ => "", fun d => some d, true, false⟩

/-- The `updated('updated')` column: engine-stamped at every write, never
client-writeable. -/
def updatedColumn (colName : String) : Column :=
  ⟨colName, fun _ => "", fun d => some d, false, true⟩

/-! ## The User model of examples 2 and 3
(src/example_2_business_logic/users/user.py, identical in
src/example_3_tests): `name` (string, Required, MaximumLength 255),
`email` (BusinessEmail, Required, MaximumLength 255), `city`/`state`/
`country` (string, not writeable), `age` (integer, not writeable),
`created`, `updated`. -/

def nameValidate (ov : Option Value) : String :=
  firstError [requiredError "name" ov, stringTypeError ov, maximumLengthError 255 ov]

def businessEmailValidate (ov : Option Value) : String :=
  firstError
    [requiredError "email" ov, maximumLengthError 255 ov,
     match ov with
     | some v => businessEmailInputErrorForValue v
     | none => ""]

/-- The `business_email('email', ...)` column: the BusinessEmail hook with
the injected `requests` collaborator baked in. -/
def emailColumn (requests : Requests) : Column :=
  ⟨"email", businessEmailValidate,
   fun d => (businessEmailPreSaveT requests "email" d).map Prod.fst, false, false⟩

/-- The ordered column registry of the `User` model of examples 2 and 3,
with the injected `requests` collaborator baked into the email column's
hook. -/
def userColumns (requests : Requests) : List Column :=
  [plainColumn "name" nameValidate,
   emailColumn requests,
   plainColumn "city" (fun _ => ""),
   plainColumn "state" (fun _ => ""),
   plainColumn "country" (fun _ => ""),
   plainColumn "age" (fun _ => ""),
   createdColumn "created",
   updatedColumn "updated"]

/-- The handler configuration of the examples 2 and 3 users API
(src/example_2_business_logic/users/api.py and
src/example_3_tests/users/applications/users_api.py): readable
name…updated, writeable name and email, searchable name and email,
default sort `name`, public authentication, default page size 100. -/
def usersApiConfig (requests : Requests) : Config :=
  ⟨userColumns requests,
   ["name", "email", "city", "state", "country", "age", "created", "updated"],
   ["name", "email"],
   ["name", "email"],
   "name",
   .publicAuth,
   100⟩

/-! ## The User model of src/users (secret-bearer protected)
(src/users/user.py): `name`, `email` (plain Email), `age` (integer,
writeable), `created`, `updated`; src/users/binding_spec.py installs
`SecretBearer` authentication with a configured secret. -/

def plainEmailValidate (ov : Option Value) : String :=
  firstError
    [requiredError "email" ov, maximumLengthError 255 ov,
     match ov with
     | some v => emailInputErrorForValue v
     | none => ""]

def secretUserColumns : List Column :=
  [plainColumn "name" nameValidate,
   plainColumn "email" plainEmailValidate,
   plainColumn "age" integerTypeError,
   createdColumn "created",
   updatedColumn "updated"]

/-- The handler configuration of src/users/api.py with the secret-bearer
authentication of src/users/binding_spec.py. -/
def secretUsersConfig (secret : String) : Config :=
  ⟨secretUserColumns,
   ["name", "email", "age", "created", "updated"],
   ["name", "email", "age"],
   ["name", "email", "age"],
   "name",
   .secretBearer secret,
   100⟩

/-! ## Test fixtures
The mocked collaborators and seeded backend of
src/example_3_tests/users/applications/users_api_test.py. -/

/-- The mocked `requests` object of the tests: any seed returns
`city: cool city`, `state: awesome state`, `country: my country`,
`age: 20`. -/
def mockRequests : Requests :=
  fun _ => ⟨⟨"cool city", "awesome state", "my country"⟩, 20⟩

/-- The record seeded in `setUp`, with `now` the injected clock value. -/
def seedRow (now : String) : Data :=
  [("name", .str "Conor"), ("email", .str "cmancone@example.com"), ("age", .int 120),
   ("created", .str now), ("updated", .str now)]

/-- The seeded in-memory backend: one record, id 1. -/
def seedStore (now : String) : Store :=
  ⟨[(1, seedRow now)], 2⟩

/-- Field order every serialized user of the examples 2/3 API must have. -/
def userFieldOrder : List String :=
  ["id", "name", "email", "city", "state", "country", "age", "created", "updated"]

/-- The field-order invariant of a response: every serialized data object
lists its keys exactly in `ks`. -/
def responseFieldOrder (r : Response) (ks : List String) : Prop :=
  match r with
  | .success (.single d) => d.map Prod.fst = ks
  | .success (.many ds _) => ∀ d ∈ ds, d.map Prod.fst = ks
  | _ => True

/-! ## Association-list lemmas -/

theorem getVal_setVal (d : Data) (k : String) (v : Value) (k' : String) :
    getVal (setVal d k v) k' = if k' = k then some v else getVal d k' := by
  induction d with
  | nil =>
    by_cases h : k' = k
    · simp [setVal, getVal, h]
    · have h2 : ¬ k = k' := fun hk => h hk.symm
      simp [setVal, getVal, h, h2]
  | cons p rest ih =>
    by_cases hp : p.1 = k
    · by_cases h : k' = k
      · simp [setVal, getVal, hp, h]
      · have hp' : ¬ k = k' := fun hk => h hk.symm
        simp [setVal, getVal, hp, h, hp', hp ▸ hp']
    · simp only [setVal, hp, if_false]
      by_cases h : p.1 = k'
      · have : ¬ k' = k := fun hk => hp (h.trans hk)
        simp [getVal, h, this]
      · simp [getVal, h, ih]

theorem getVal_mergeData (a b : Data) (k : String) :
    getVal (mergeData a b) k = (lastVal b k).orElse (fun _ => getVal a k) := by
  induction b generalizing a with
  | nil => simp [mergeData, lastVal, Option.orElse]
  | cons p rest ih =>
    show getVal (mergeData (setVal a p.1 p.2) rest) k = _
    rw [ih]
    simp only [lastVal]
    cases lastVal rest k with
    | some v => simp [Option.orElse]
    | none =>
      simp only [Option.orElse, getVal_setVal]
      by_cases h : k = p.1
      · simp [h]
      · have h2 : ¬ p.1 = k := fun hk => h hk.symm
        simp [h, h2]

/-- Merging the same mapping twice is value-level idempotent. -/
theorem getVal_mergeData_idem (a b : Data) (k : String) :
    getVal (mergeData (mergeData a b) b) k = getVal (mergeData a b) k := by
  rw [getVal_mergeData, getVal_mergeData]
  cases lastVal b k <;> simp [Option.orElse]

theorem getVal_eq_none_of_hasKey_false (d : Data) (k : String)
    (h : hasKey d k = false) : getVal d k = none := by
  induction d with
  | nil => rfl
  | cons p rest ih =>
    simp only [hasKey, Bool.or_eq_false_iff, decide_eq_false_iff_not] at h
    simp [getVal, h.1, ih h.2]

theorem hasKey_false_of_getVal_none (d : Data) (k : String)
    (h : getVal d k = none) : hasKey d k = false := by
  induction d with
  | nil => rfl
  | cons p rest ih =>
    by_cases hp : p.1 = k
    · simp [getVal, hp] at h
    · simp only [getVal, hp, if_false] at h
      simp [hasKey, hp, ih h]

theorem lastVal_eq_none_of_hasKey_false (d : Data) (k : String)
    (h : hasKey d k = false) : lastVal d k = none := by
  induction d with
  | nil => rfl
  | cons p rest ih =>
    simp only [hasKey, Bool.or_eq_false_iff, decide_eq_false_iff_not] at h
    simp [lastVal, h.1, ih h.2, Option.orElse]

theorem hasKey_setVal_ne (d : Data) (a : String) (v : Value) (k : String)
    (h : k ≠ a) : hasKey (setVal d a v) k = hasKey d k := by
  have h2 : ¬ a = k := fun hk => h hk.symm
  induction d with
  | nil => simp [setVal, hasKey, h2]
  | cons p rest ih =>
    by_cases hp : p.1 = a
    · simp [setVal, hasKey, hp, h2]
    · simp [setVal, hasKey, hp, ih]

theorem lastVal_setVal_ne (d : Data) (a : String) (v : Value) (k : String)
    (h : k ≠ a) : lastVal (setVal d a v) k = lastVal d k := by
  have h2 : ¬ a = k := fun hk => h hk.symm
  induction d with
  | nil => simp [setVal, lastVal, h2, Option.orElse]
  | cons p rest ih =>
    by_cases hp : p.1 = a
    · simp [setVal, lastVal, hp, h2, Option.orElse]
    · simp [setVal, lastVal, hp, ih]

theorem lastVal_setVal_self (d : Data) (a : String) (v : Value)
    (h : hasKey d a = false) : lastVal (setVal d a v) a = some v := by
  induction d with
  | nil => simp [setVal, lastVal, Option.orElse]
  | cons p rest ih =>
    simp only [hasKey, Bool.or_eq_false_iff, decide_eq_false_iff_not] at h
    simp [setVal, lastVal, h.1, ih h.2, Option.orElse]

theorem getVal_parseBody_mem (w : List String) (body : Data) (k : String)
    (h : w.contains k = true) : getVal (parseBody w body) k = getVal body k := by
  induction body with
  | nil => rfl
  | cons p rest ih =>
    simp only [parseBody] at ih ⊢
    by_cases hw : w.contains p.1 = true
    · rw [List.filter_cons, if_pos hw]
      by_cases hp : p.1 = k
      · simp only [getVal, hp, if_true, if_pos]
      · simp only [getVal]
        rw [if_neg hp, if_neg hp]
        exact ih
    · rw [List.filter_cons, if_neg hw]
      have hp : ¬ p.1 = k := fun hk => hw (hk ▸ h)
      simp only [getVal]
      rw [if_neg hp]
      exact ih

theorem hasKey_parseBody_not_mem (w : List String) (body : Data) (k : String)
    (h : w.contains k = false) : hasKey (parseBody w body) k = false := by
  induction body with
  | nil => rfl
  | cons p rest ih =>
    simp only [parseBody] at ih ⊢
    by_cases hw : w.contains p.1 = true
    · have hp : ¬ p.1 = k := fun hk => by rw [hk, h] at hw; cases hw
      rw [List.filter_cons, if_pos hw]
      simp only [hasKey]
      rw [ih]
      simp [hp]
    · rw [List.filter_cons, if_neg hw]
      exact ih

theorem hasKey_true_of_getVal_some (d : Data) (k : String) (v : Value)
    (h : getVal d k = some v) : hasKey d k = true := by
  cases hk : hasKey d k
  · rw [getVal_eq_none_of_hasKey_false d k hk] at h
    cases h
  · rfl

theorem hasKey_parseBody_false_of_false (w : List String) (body : Data) (k : String)
    (h : hasKey body k = false) : hasKey (parseBody w body) k = false := by
  induction body with
  | nil => rfl
  | cons p rest ih =>
    simp only [hasKey, Bool.or_eq_false_iff, decide_eq_false_iff_not] at h
    simp only [parseBody] at ih ⊢
    rw [List.filter_cons]
    by_cases hw : w.contains p.1 = true
    · rw [if_pos hw]
      simp only [hasKey]
      rw [ih h.2]
      simp [h.1]
    · rw [if_neg hw]
      exact ih h.2

/-! ## Pipeline characterization lemmas for the concrete User columns -/

/-- Running the User model's hooks in registration order is exactly running
the `BusinessEmail` hook: every other column's `pre_save` is the identity. -/
theorem runHooks_userColumns (requests : Requests) (d : Data) :
    runHooks (userColumns requests) d =
      (businessEmailPreSaveT requests "email" d).map Prod.fst := by
  cases h : businessEmailPreSaveT requests "email" d with
  | none =>
    simp [runHooks, userColumns, emailColumn, plainColumn, createdColumn, updatedColumn, h]
  | some pr =>
    simp [runHooks, userColumns, emailColumn, plainColumn, createdColumn, updatedColumn, h]

/-- On update only the `updated` column is stamped. -/
theorem applyStamps_update_userColumns (requests : Requests) (now : String) (d : Data) :
    applyStamps .update now (userColumns requests) d = setVal d "updated" (.str now) :=
  rfl

/-- On create both `created` and `updated` are stamped. -/
theorem applyStamps_create_userColumns (requests : Requests) (now : String) (d : Data) :
    applyStamps .create now (userColumns requests) d =
      setVal (setVal d "created" (.str now)) "updated" (.str now) :=
  rfl

/-- The effective values the email hook's four-field merge contributes. -/
theorem lastVal_mergeFour (d : Data) (v1 v2 v3 v4 : Value)
    (h1 : hasKey d "city" = false) (h2 : hasKey d "state" = false)
    (h3 : hasKey d "country" = false) (h4 : hasKey d "age" = false) :
    lastVal (mergeData d [("city", v1), ("state", v2), ("country", v3), ("age", v4)]) "city"
        = some v1 ∧
    lastVal (mergeData d [("city", v1), ("state", v2), ("country", v3), ("age", v4)]) "state"
        = some v2 ∧
    lastVal (mergeData d [("city", v1), ("state", v2), ("country", v3), ("age", v4)]) "country"
        = some v3 ∧
    lastVal (mergeData d [("city", v1), ("state", v2), ("country", v3), ("age", v4)]) "age"
        = some v4 := by
  have e : mergeData d [("city", v1), ("state", v2), ("country", v3), ("age", v4)] =
      setVal (setVal (setVal (setVal d "city" v1) "state" v2) "country" v3) "age" v4 := rfl
  rw [e]
  refine ⟨?_, ?_, ?_, ?_⟩
  · rw [lastVal_setVal_ne _ _ _ _ (by decide), lastVal_setVal_ne _ _ _ _ (by decide),
      lastVal_setVal_ne _ _ _ _ (by decide)]
    exact lastVal_setVal_self d "city" v1 h1
  · rw [lastVal_setVal_ne _ _ _ _ (by decide), lastVal_setVal_ne _ _ _ _ (by decide)]
    exact lastVal_setVal_self _ "state" v2
      (by rw [hasKey_setVal_ne _ _ _ _ (by decide)]; exact h2)
  · rw [lastVal_setVal_ne _ _ _ _ (by decide)]
    exact lastVal_setVal_self _ "country" v3
      (by rw [hasKey_setVal_ne _ _ _ _ (by decide), hasKey_setVal_ne _ _ _ _ (by decide)]
          exact h3)
  · exact lastVal_setVal_self _ "age" v4
      (by rw [hasKey_setVal_ne _ _ _ _ (by decide), hasKey_setVal_ne _ _ _ _ (by decide),
            hasKey_setVal_ne _ _ _ _ (by decide)]
          exact h4)

/-- Keys not among the four enrichment fields look through the hook's
merge. -/
theorem lastVal_mergeFour_other (d : Data) (v1 v2 v3 v4 : Value) (k : String)
    (hc : k ≠ "city") (hs : k ≠ "state") (hco : k ≠ "country") (ha : k ≠ "age") :
    lastVal (mergeData d [("city", v1), ("state", v2), ("country", v3), ("age", v4)]) k
      = lastVal d k := by
  have e : mergeData d [("city", v1), ("state", v2), ("country", v3), ("age", v4)] =
      setVal (setVal (setVal (setVal d "city" v1) "state" v2) "country" v3) "age" v4 := rfl
  rw [e, lastVal_setVal_ne _ _ _ _ ha, lastVal_setVal_ne _ _ _ _ hco,
    lastVal_setVal_ne _ _ _ _ hs, lastVal_setVal_ne _ _ _ _ hc]

/-! ## Claim theorems -/

/-- C8: for every value, `BusinessEmail.check_search_value` returns the
same error string as `BusinessEmail.input_error_for_value`: the
search-value check applies the base email-shape and string-type checks and
the custom domain rule rejecting addresses ending in `@example.com`,
returning the empty string exactly on values passing all of them. -/
theorem checkSearchValue_eq_inputErrorForValue :
    (∀ v : Value, businessEmailCheckSearchValue v = businessEmailInputErrorForValue v) ∧
    businessEmailCheckSearchValue (.str "cmancone@example2.com") = "" ∧
    businessEmailCheckSearchValue (.str "cmancone@example.com") = "Invalid email domain" ∧
    businessEmailCheckSearchValue (.str "cmancone") = "Invalid email address" ∧
    businessEmailCheckSearchValue (.int 5) = "Value must be a string for email" :=
  ⟨fun _ => rfl, rfl, rfl, rfl, rfl⟩

/-- C9: for every data mapping without the key `email`,
`BusinessEmail.pre_save` returns the mapping itself — no field changed,
added or removed — and makes no lookup call. -/
theorem preSave_no_email_identity (requests : Requests) (d : Data)
    (h : hasKey d "email" = false) :
    businessEmailPreSaveT requests "email" d = some (d, []) := by
  simp [businessEmailPreSaveT, h]

theorem preSave_no_email_identity_witness :
    hasKey [(("name" : String), Value.str "Conor")] "email" = false ∧
    businessEmailPreSaveT mockRequests "email" [(("name" : String), Value.str "Conor")] =
      some ([(("name" : String), Value.str "Conor")], []) :=
  ⟨rfl, preSave_no_email_identity mockRequests _ rfl⟩

/-- C10: for every data mapping whose `email` value is blank after
stripping whitespace, `BusinessEmail.pre_save` makes no lookup call and
returns the mapping with `city`, `state`, `country` and `age` each set to
the empty string (`age` becomes `''`, not `0`), every other field
unchanged. -/
theorem preSave_blank_email (requests : Requests) (d : Data) (s : String)
    (hv : getVal d "email" = some (.str s)) (hb : pyStrip s = "") :
    ∃ d', businessEmailPreSaveT requests "email" d = some (d', []) ∧
      getVal d' "city" = some (.str "") ∧ getVal d' "state" = some (.str "") ∧
      getVal d' "country" = some (.str "") ∧ getVal d' "age" = some (.str "") ∧
      ∀ k, k ≠ "city" → k ≠ "state" → k ≠ "country" → k ≠ "age" →
        getVal d' k = getVal d k := by
  have hk : hasKey d "email" = true := hasKey_true_of_getVal_some d "email" _ hv
  refine ⟨mergeData d
    [("city", .str ""), ("state", .str ""), ("country", .str ""), ("age", .str "")],
    ?_, ?_, ?_, ?_, ?_, ?_⟩
  · simp [businessEmailPreSaveT, hk, hv, hb]
  · rw [getVal_mergeData]
    rfl
  · rw [getVal_mergeData]
    rfl
  · rw [getVal_mergeData]
    rfl
  · rw [getVal_mergeData]
    rfl
  · intro k hc hs hco ha
    rw [getVal_mergeData]
    have h2 : ¬ ("city" : String) = k := fun h => hc h.symm
    have h3 : ¬ ("state" : String) = k := fun h => hs h.symm
    have h4 : ¬ ("country" : String) = k := fun h => hco h.symm
    have h5 : ¬ ("age" : String) = k := fun h => ha h.symm
    have hl : lastVal
        [("city", Value.str ""), ("state", Value.str ""), ("country", Value.str ""),
         ("age", Value.str "")] k = none := by
      simp [lastVal, h2, h3, h4, h5, Option.orElse]
    rw [hl]
    rfl

theorem preSave_blank_email_witness :
    getVal [(("name" : String), Value.str "Conor"), ("email", Value.str ""),
      ("city", Value.str "Will"), ("state", Value.str "Be"),
      ("country", Value.str "Clobbered"), ("age", Value.int 20)] "email" =
        some (Value.str "") ∧
    pyStrip "" = "" ∧
    (∃ d', businessEmailPreSaveT mockRequests "email"
        [(("name" : String), Value.str "Conor"), ("email", Value.str ""),
         ("city", Value.str "Will"), ("state", Value.str "Be"),
         ("country", Value.str "Clobbered"), ("age", Value.int 20)] = some (d', []) ∧
      getVal d' "city" = some (.str "") ∧ getVal d' "state" = some (.str "") ∧
      getVal d' "country" = some (.str "") ∧ getVal d' "age" = some (.str "") ∧
      ∀ k, k ≠ "city" → k ≠ "state" → k ≠ "country" → k ≠ "age" →
        getVal d' k = getVal
          [(("name" : String), Value.str "Conor"), ("email", Value.str ""),
           ("city", Value.str "Will"), ("state", Value.str "Be"),
           ("country", Value.str "Clobbered"), ("age", Value.int 20)] k) :=
  ⟨rfl, rfl, preSave_blank_email mockRequests _ "" rfl rfl⟩

/-- C1: a create request with body `name: Alice, email: alice@example2.com`
against the users resource seeded with one record, with the injected
lookup returning `cool city / awesome state / my country / 20` and the
injected clock fixed at `now`, responds with status `success` and data
exactly `id 2, name Alice, email alice@example2.com, city cool city,
state awesome state, country my country, age 20, created now, updated
now`, in that order. -/
theorem create_alice_response (now : String) :
    (handleRequest (usersApiConfig mockRequests) (seedStore now)
        ⟨.post, none, none, none,
         [("name", .str "Alice"), ("email", .str "alice@example2.com")], none⟩ now).response =
      .success (.single
        [("id", .int 2), ("name", .str "Alice"), ("email", .str "alice@example2.com"),
         ("city", .str "cool city"), ("state", .str "awesome state"),
         ("country", .str "my country"), ("age", .int 20),
         ("created", .str now), ("updated", .str now)]) :=
  rfl

/-- C6: a list request without explicit start or limit against the seeded
store with one record succeeds with a one-element data array and
pagination `numberResults 1, start 0, limit 100`; the configured default
page size is 100. -/
theorem list_default_pagination :
    (handleRequest (usersApiConfig mockRequests) (seedStore "T0")
        ⟨.get, none, none, none, [], none⟩ "T0").response =
      .success (.many
        [[("id", .int 1), ("name", .str "Conor"), ("email", .str "cmancone@example.com"),
          ("city", .null), ("state", .null), ("country", .null), ("age", .int 120),
          ("created", .str "T0"), ("updated", .str "T0")]]
        ⟨1, 0, 100⟩) ∧
    (usersApiConfig mockRequests).defaultLimit = 100 :=
  ⟨rfl, rfl⟩

/-- Serialization always lists the identity column first and then the
readable columns in registration order. -/
theorem serializeRow_keys (cfg : Config) (id : Nat) (row : Data) :
    (serializeRow cfg id row).map Prod.fst = "id" :: cfg.readableColumns := by
  simp only [serializeRow, List.map_cons, List.map_map]
  have h : (Prod.fst ∘ fun c : String => (c, (getVal row c).getD Value.null)) =
      fun c : String => c := rfl
  rw [h, List.map_id']

/-- C4: for every request to a secret_bearer-protected resource whose
bearer token is missing or incorrect, the handler terminates with
Unauthenticated (for any request that resolves to an operation), the
backend state is untouched, and no storage-backend call occurs at all. -/
theorem secret_bearer_gate (cfg : Config) (store : Store) (req : Request)
    (now : String) (secret : String)
    (hauth : cfg.authentication = .secretBearer secret)
    (htok : ∀ t, req.authToken = some t → t ≠ secret) :
    (handleRequest cfg store req now).trace = [] ∧
    (handleRequest cfg store req now).store = store ∧
    (∀ op, routeOf req = some op →
      (handleRequest cfg store req now).response = .unauthenticated) := by
  have hbad : authOk cfg.authentication req.authToken = false := by
    rw [hauth]
    cases ht : req.authToken with
    | none => rfl
    | some t => simp [authOk, htok t ht]
  have hcond : ¬ (authOk cfg.authentication req.authToken = true) := by
    rw [hbad]
    exact Bool.false_ne_true
  unfold handleRequest
  cases hroute : routeOf req with
  | none => exact ⟨rfl, rfl, fun op hop => by cases hop⟩
  | some op =>
    dsimp only
    rw [if_neg hcond]
    exact ⟨rfl, rfl, fun _ _ => rfl⟩

theorem secret_bearer_gate_witness :
    (secretUsersConfig "topsecret").authentication = .secretBearer "topsecret" ∧
    (∀ t, (some "wrong" : Option String) = some t → t ≠ "topsecret") ∧
    ((handleRequest (secretUsersConfig "topsecret") (seedStore "T0")
        ⟨.get, none, none, none, [], some "wrong"⟩ "T0").trace = [] ∧
     (handleRequest (secretUsersConfig "topsecret") (seedStore "T0")
        ⟨.get, none, none, none, [], some "wrong"⟩ "T0").store = seedStore "T0" ∧
     (∀ op, routeOf ⟨.get, none, none, none, [], some "wrong"⟩ = some op →
        (handleRequest (secretUsersConfig "topsecret") (seedStore "T0")
          ⟨.get, none, none, none, [], some "wrong"⟩ "T0").response = .unauthenticated)) :=
  ⟨rfl, fun t ht => by cases ht; decide,
   secret_bearer_gate _ _ _ _ _ rfl (fun t ht => by cases ht; decide)⟩

/-- C5: every successful response of the examples 2/3 users API serializes
each data object's fields exactly in column-registration order with the
identity column first — id, name, email, city, state, country, age,
created, updated — for single-object and list responses alike. -/
theorem response_field_order (requests : Requests) (store : Store) (req : Request)
    (now : String) :
    responseFieldOrder
      (handleRequest (usersApiConfig requests) store req now).response userFieldOrder := by
  have hkeys : ∀ id row,
      (serializeRow (usersApiConfig requests) id row).map Prod.fst = userFieldOrder := by
    intro id row
    rw [serializeRow_keys]
    rfl
  have hauth : authOk (usersApiConfig requests).authentication req.authToken = true := rfl
  unfold handleRequest
  cases hroute : routeOf req with
  | none => exact trivial
  | some op =>
    dsimp only
    rw [if_pos hauth]
    cases op with
    | listOp =>
      dsimp only
      intro d hd
      rcases List.mem_map.1 hd with ⟨r, _, rfl⟩
      exact hkeys r.1 r.2
    | fetchOne id =>
      dsimp only
      cases hfind : findRow store id with
      | none => exact trivial
      | some row => exact hkeys id row
    | createOp =>
      dsimp only
      by_cases herrs : validateBody .create (usersApiConfig requests) req.body = []
      · rw [if_pos herrs]
        cases hh : runHooks (usersApiConfig requests).columns
            (parseBody (usersApiConfig requests).writeableColumns req.body) with
        | none => exact trivial
        | some hooked => exact hkeys store.nextId _
      · rw [if_neg herrs]
        exact trivial
    | updateOp id =>
      dsimp only
      cases hfind : findRow store id with
      | none => exact trivial
      | some row =>
        dsimp only
        by_cases herrs : validateBody .update (usersApiConfig requests) req.body = []
        · rw [if_pos herrs]
          cases hh : runHooks (usersApiConfig requests).columns
              (parseBody (usersApiConfig requests).writeableColumns req.body) with
          | none => exact trivial
          | some hooked => exact hkeys id _
        · rw [if_neg herrs]
          exact trivial
    | deleteOp id =>
      dsimp only
      cases hfind : findRow store id with
      | none => exact trivial
      | some row => exact trivial

/-- Every failing writeable column lands in the accumulated error list. -/
theorem validateBody_mem (kind : WriteKind) (cfg : Config) (body : Data)
    (c : Column) (hc : c ∈ cfg.columns)
    (hw : cfg.writeableColumns.contains c.name = true)
    (he : columnError kind c body ≠ "") :
    (c.name, columnError kind c body) ∈ validateBody kind cfg body := by
  unfold validateBody
  generalize cfg.columns = cols at hc ⊢
  induction cols with
  | nil => cases hc
  | cons c0 rest ih =>
    rw [List.foldr_cons]
    rcases List.mem_cons.1 hc with h | h
    · subst h
      rw [if_pos hw, if_neg he]
      exact List.mem_cons_self _ _
    · by_cases hw0 : cfg.writeableColumns.contains c0.name = true
      · rw [if_pos hw0]
        by_cases he0 : columnError kind c0 body = ""
        · rw [if_pos he0]
          exact ih h
        · rw [if_neg he0]
          exact List.mem_cons_of_mem _ (ih h)
      · rw [if_neg hw0]
        exact ih h

/-- C2: for every create request, and every update request whose target
exists, with passing authentication: if at least one writeable column's
validator rejects its body value, the backend state is unchanged (no
mutation) and the response is `input_errors` carrying the accumulated
column-name → message mapping, with every failing column in it. -/
theorem validate_abort_atomic (cfg : Config) (store : Store) (req : Request)
    (now : String) (kind : WriteKind) (c : Column)
    (hauth : authOk cfg.authentication req.authToken = true)
    (hroute : (kind = .create ∧ routeOf req = some .createOp) ∨
      (kind = .update ∧ ∃ id, routeOf req = some (.updateOp id) ∧
        (findRow store id).isSome = true))
    (hc : c ∈ cfg.columns) (hw : cfg.writeableColumns.contains c.name = true)
    (he : columnError kind c req.body ≠ "") :
    (handleRequest cfg store req now).store = store ∧
    (handleRequest cfg store req now).response =
      .inputErrors (validateBody kind cfg req.body) ∧
    (∀ c2, c2 ∈ cfg.columns → cfg.writeableColumns.contains c2.name = true →
      columnError kind c2 req.body ≠ "" →
      (c2.name, columnError kind c2 req.body) ∈ validateBody kind cfg req.body) := by
  have hne : validateBody kind cfg req.body ≠ [] :=
    List.ne_nil_of_mem (validateBody_mem kind cfg req.body c hc hw he)
  rcases hroute with ⟨hk, hr⟩ | ⟨hk, id, hr, hfind⟩
  · subst hk
    unfold handleRequest
    rw [hr]
    dsimp only
    rw [if_pos hauth, if_neg hne]
    exact ⟨rfl, rfl, fun c2 h1 h2 h3 => validateBody_mem _ cfg req.body c2 h1 h2 h3⟩
  · subst hk
    rcases Option.isSome_iff_exists.1 hfind with ⟨row, hrow⟩
    unfold handleRequest
    rw [hr]
    dsimp only
    rw [if_pos hauth, hrow]
    dsimp only
    rw [if_neg hne]
    exact ⟨rfl, rfl, fun c2 h1 h2 h3 => validateBody_mem _ cfg req.body c2 h1 h2 h3⟩

theorem validate_abort_atomic_witness :
    authOk (usersApiConfig mockRequests).authentication none = true ∧
    routeOf ⟨.post, none, none, none, [("name", Value.str "")], none⟩ =
      some .createOp ∧
    plainColumn "name" nameValidate ∈ (usersApiConfig mockRequests).columns ∧
    (usersApiConfig mockRequests).writeableColumns.contains
      (plainColumn "name" nameValidate).name = true ∧
    columnError .create (plainColumn "name" nameValidate)
      [("name", Value.str "")] ≠ "" ∧
    ((handleRequest (usersApiConfig mockRequests) (seedStore "T0")
        ⟨.post, none, none, none, [("name", Value.str "")], none⟩ "T0").store =
      seedStore "T0" ∧
     (handleRequest (usersApiConfig mockRequests) (seedStore "T0")
        ⟨.post, none, none, none, [("name", Value.str "")], none⟩ "T0").response =
      .inputErrors (validateBody .create (usersApiConfig mockRequests)
        [("name", Value.str "")]) ∧
     (∀ c2, c2 ∈ (usersApiConfig mockRequests).columns →
        (usersApiConfig mockRequests).writeableColumns.contains c2.name = true →
        columnError .create c2 [("name", Value.str "")] ≠ "" →
        (c2.name, columnError .create c2 [("name", Value.str "")]) ∈
          validateBody .create (usersApiConfig mockRequests)
            [("name", Value.str "")])) :=
  ⟨rfl, rfl, List.mem_cons_self _ _, rfl, by decide,
   validate_abort_atomic (usersApiConfig mockRequests) (seedStore "T0")
     ⟨.post, none, none, none, [("name", Value.str "")], none⟩ "T0" .create
     (plainColumn "name" nameValidate) rfl (Or.inl ⟨rfl, rfl⟩)
     (List.mem_cons_self _ _) rfl (by decide)⟩

/-- The hook's behaviour on a string-valued email field. -/
theorem preSaveT_str (requests : Requests) (d : Data) (s : String)
    (hg : getVal d "email" = some (.str s)) :
    businessEmailPreSaveT requests "email" d =
      if pyStrip s = "" then
        some (mergeData d
          [("city", .str ""), ("state", .str ""), ("country", .str ""),
           ("age", .str "")], [])
      else
        some (mergeData d
          [("city", .str (requests (pyStrip s)).location.city),
           ("state", .str (requests (pyStrip s)).location.state),
           ("country", .str (requests (pyStrip s)).location.country),
           ("age", .int (requests (pyStrip s)).age)], [pyStrip s]) := by
  have hk : hasKey d "email" = true := hasKey_true_of_getVal_some d _ _ hg
  unfold businessEmailPreSaveT
  rw [hk, hg]
  simp

theorem findRow_isSome (store : Store) (id : Nat) (row : Data)
    (h : findRow store id = some row) :
    (store.rows.find? (fun r => r.1 = id)).isSome = true := by
  unfold findRow at h
  cases hf : store.rows.find? (fun r => r.1 = id) with
  | none => rw [hf] at h; cases h
  | some p => rfl

theorem find?_update_self (rows : List (Nat × Data)) (id : Nat) (newRow : Data)
    (h : (rows.find? (fun r => r.1 = id)).isSome = true) :
    (rows.map (fun r => if r.1 = id then (id, newRow) else r)).find?
      (fun r => r.1 = id) = some (id, newRow) := by
  induction rows with
  | nil => cases h
  | cons r0 rest ih =>
    by_cases h0 : r0.1 = id
    · rw [List.map_cons, if_pos h0]
      exact List.find?_cons_of_pos _ (by simp)
    · rw [List.map_cons, if_neg h0]
      rw [List.find?_cons_of_neg _ (by simpa using h0)]
      apply ih
      rw [List.find?_cons_of_neg _ (by simpa using h0)] at h
      exact h

theorem find?_update_ne (rows : List (Nat × Data)) (id : Nat) (newRow : Data)
    (j : Nat) (hj : ¬ j = id) :
    (rows.map (fun r => if r.1 = id then (id, newRow) else r)).find?
      (fun r => r.1 = j) = rows.find? (fun r => r.1 = j) := by
  induction rows with
  | nil => rfl
  | cons r0 rest ih =>
    by_cases h0 : r0.1 = id
    · have hij : ¬ id = j := fun hh => hj hh.symm
      have hr0 : ¬ r0.1 = j := by rw [h0]; exact hij
      rw [List.map_cons, if_pos h0,
        List.find?_cons_of_neg _ (by simpa using hij),
        List.find?_cons_of_neg _ (by simpa using hr0), ih]
    · rw [List.map_cons, if_neg h0]
      by_cases hr0 : r0.1 = j
      · rw [List.find?_cons_of_pos _ (by simpa using hr0),
          List.find?_cons_of_pos _ (by simpa using hr0)]
      · rw [List.find?_cons_of_neg _ (by simpa using hr0),
          List.find?_cons_of_neg _ (by simpa using hr0), ih]

theorem map_fst_update (rows : List (Nat × Data)) (id : Nat) (newRow : Data) :
    (rows.map (fun r => if r.1 = id then (id, newRow) else r)).map Prod.fst =
      rows.map Prod.fst := by
  induction rows with
  | nil => rfl
  | cons r0 rest ih =>
    by_cases h0 : r0.1 = id
    · simp [h0, ih]
    · simp [h0, ih]

/-- When validation of the users API accepts a body, a present email value
is a string (every non-string value fails the email column's checks). -/
theorem validate_pass_email_str (requests : Requests) (body : Data)
    (kind : WriteKind) (v : Value)
    (hvalid : validateBody kind (usersApiConfig requests) body = [])
    (hg : getVal body "email" = some v) :
    ∃ s, v = .str s := by
  cases v with
  | str s => exact ⟨s, rfl⟩
  | null =>
    exfalso
    have he : columnError kind (emailColumn requests) body ≠ "" := by
      unfold columnError emailColumn
      dsimp only
      rw [hg]
      intro hEq
      exact absurd (show ("email is required" : String) = "" from hEq) (by decide)
    exact List.ne_nil_of_mem
      (validateBody_mem kind (usersApiConfig requests) body _
        (List.mem_cons_of_mem _ (List.mem_cons_self _ _)) rfl he) hvalid
  | int n =>
    exfalso
    have he : columnError kind (emailColumn requests) body ≠ "" := by
      unfold columnError emailColumn
      dsimp only
      rw [hg]
      intro hEq
      exact absurd
        (show ("Value must be a string for email" : String) = "" from hEq) (by decide)
    exact List.ne_nil_of_mem
      (validateBody_mem kind (usersApiConfig requests) body _
        (List.mem_cons_of_mem _ (List.mem_cons_self _ _)) rfl he) hvalid

/-- C7: for every update request whose body includes the email field, the
enrichment hook fires — the lookup is called with the submitted email and
the persisted row's city, state, country and age are recomputed from it —
even when the submitted email value equals the already-stored value; the
hook is gated only on the field being present in the write data. -/
theorem update_refires_enrichment (requests : Requests) (store : Store)
    (id : Nat) (row : Data) (body : Data) (e : String)
    (qs ql : Option Nat) (tok : Option String) (now : String)
    (hrow : findRow store id = some row)
    (hstored : getVal row "email" = some (.str e))
    (hbody : getVal body "email" = some (.str e))
    (htrim : pyStrip e = e) (hne : e ≠ "")
    (hvalid : validateBody .update (usersApiConfig requests) body = []) :
    ∃ row2, findRow (handleRequest (usersApiConfig requests) store
        ⟨.put, some id, qs, ql, body, tok⟩ now).store id = some row2 ∧
      getVal row2 "city" = some (.str (requests e).location.city) ∧
      getVal row2 "state" = some (.str (requests e).location.state) ∧
      getVal row2 "country" = some (.str (requests e).location.country) ∧
      getVal row2 "age" = some (.int (requests e).age) ∧
      (businessEmailPreSaveT requests "email"
        (parseBody ["name", "email"] body)).map Prod.snd = some [e] := by
  have hgp : getVal (parseBody ["name", "email"] body) "email" = some (.str e) := by
    rw [getVal_parseBody_mem ["name", "email"] body "email" rfl]
    exact hbody
  have hpr : businessEmailPreSaveT requests "email" (parseBody ["name", "email"] body) =
      some (mergeData (parseBody ["name", "email"] body)
        [("city", .str (requests e).location.city),
         ("state", .str (requests e).location.state),
         ("country", .str (requests e).location.country),
         ("age", .int (requests e).age)], [e]) := by
    rw [preSaveT_str _ _ _ hgp, htrim, if_neg hne]
  have hrh : runHooks (usersApiConfig requests).columns
      (parseBody (usersApiConfig requests).writeableColumns body) =
      some (mergeData (parseBody ["name", "email"] body)
        [("city", .str (requests e).location.city),
         ("state", .str (requests e).location.state),
         ("country", .str (requests e).location.country),
         ("age", .int (requests e).age)]) := by
    rw [show (usersApiConfig requests).columns = userColumns requests from rfl,
      show (usersApiConfig requests).writeableColumns = ["name", "email"] from rfl,
      runHooks_userColumns, hpr]
    rfl
  have hsome := findRow_isSome store id row hrow
  have hkc : hasKey (parseBody ["name", "email"] body) "city" = false :=
    hasKey_parseBody_not_mem ["name", "email"] body "city" rfl
  have hks : hasKey (parseBody ["name", "email"] body) "state" = false :=
    hasKey_parseBody_not_mem ["name", "email"] body "state" rfl
  have hkco : hasKey (parseBody ["name", "email"] body) "country" = false :=
    hasKey_parseBody_not_mem ["name", "email"] body "country" rfl
  have hka : hasKey (parseBody ["name", "email"] body) "age" = false :=
    hasKey_parseBody_not_mem ["name", "email"] body "age" rfl
  obtain ⟨l1, l2, l3, l4⟩ := lastVal_mergeFour (parseBody ["name", "email"] body)
    (.str (requests e).location.city) (.str (requests e).location.state)
    (.str (requests e).location.country) (.int (requests e).age) hkc hks hkco hka
  unfold handleRequest
  rw [show routeOf ⟨.put, some id, qs, ql, body, tok⟩ = some (.updateOp id) from rfl]
  dsimp only
  rw [if_pos (show authOk (usersApiConfig requests).authentication tok = true from rfl)]
  rw [hrow]
  dsimp only
  rw [if_pos hvalid, hrh]
  dsimp only
  rw [show (usersApiConfig requests).columns = userColumns requests from rfl,
    applyStamps_update_userColumns]
  refine ⟨mergeData row (setVal (mergeData (parseBody ["name", "email"] body)
      [("city", .str (requests e).location.city),
       ("state", .str (requests e).location.state),
       ("country", .str (requests e).location.country),
       ("age", .int (requests e).age)]) "updated" (.str now)),
    ?_, ?_, ?_, ?_, ?_, ?_⟩
  · unfold findRow
    dsimp only
    rw [find?_update_self _ _ _ hsome]
    rfl
  · rw [getVal_mergeData, lastVal_setVal_ne _ _ _ _ (by decide), l1]
    rfl
  · rw [getVal_mergeData, lastVal_setVal_ne _ _ _ _ (by decide), l2]
    rfl
  · rw [getVal_mergeData, lastVal_setVal_ne _ _ _ _ (by decide), l3]
    rfl
  · rw [getVal_mergeData, lastVal_setVal_ne _ _ _ _ (by decide), l4]
    rfl
  · rw [hpr]
    rfl

theorem update_refires_enrichment_witness :
    findRow ⟨[(1, [("name", Value.str "Conor"),
        ("email", Value.str "cman@example2.com")])], 2⟩ 1 =
      some [("name", Value.str "Conor"), ("email", Value.str "cman@example2.com")] ∧
    getVal [(("name" : String), Value.str "Conor"),
        ("email", Value.str "cman@example2.com")] "email" =
      some (Value.str "cman@example2.com") ∧
    getVal [(("email" : String), Value.str "cman@example2.com")] "email" =
      some (Value.str "cman@example2.com") ∧
    pyStrip "cman@example2.com" = "cman@example2.com" ∧
    "cman@example2.com" ≠ "" ∧
    validateBody .update (usersApiConfig mockRequests)
      [("email", Value.str "cman@example2.com")] = [] ∧
    (∃ row2, findRow (handleRequest (usersApiConfig mockRequests)
        ⟨[(1, [("name", Value.str "Conor"),
            ("email", Value.str "cman@example2.com")])], 2⟩
        ⟨.put, some 1, none, none,
         [("email", Value.str "cman@example2.com")], none⟩ "T0").store 1 = some row2 ∧
      getVal row2 "city" =
        some (.str (mockRequests "cman@example2.com").location.city) ∧
      getVal row2 "state" =
        some (.str (mockRequests "cman@example2.com").location.state) ∧
      getVal row2 "country" =
        some (.str (mockRequests "cman@example2.com").location.country) ∧
      getVal row2 "age" = some (.int (mockRequests "cman@example2.com").age) ∧
      (businessEmailPreSaveT mockRequests "email"
        (parseBody ["name", "email"] [("email", Value.str "cman@example2.com")])).map
          Prod.snd = some ["cman@example2.com"]) :=
  ⟨rfl, rfl, rfl, rfl, by decide, by decide,
   update_refires_enrichment mockRequests
     ⟨[(1, [("name", Value.str "Conor"), ("email", Value.str "cman@example2.com")])], 2⟩
     1 [("name", Value.str "Conor"), ("email", Value.str "cman@example2.com")]
     [("email", Value.str "cman@example2.com")] "cman@example2.com"
     none none none "T0" rfl rfl rfl rfl (by decide) (by decide)⟩

/-- What a successful update does to the backend: the target row becomes
the old row overridden by the hook output plus the `updated` stamp. -/
theorem update_store_eq (requests : Requests) (store : Store) (id : Nat) (row : Data)
    (body : Data) (qs ql : Option Nat) (tok : Option String) (now : String)
    (hrow : findRow store id = some row)
    (hvalid : validateBody .update (usersApiConfig requests) body = [])
    (hooked : Data) (tr : List String)
    (hhook : businessEmailPreSaveT requests "email" (parseBody ["name", "email"] body)
      = some (hooked, tr)) :
    (handleRequest (usersApiConfig requests) store
      ⟨.put, some id, qs, ql, body, tok⟩ now).store =
    ⟨store.rows.map (fun r => if r.1 = id then
        (id, mergeData row (setVal hooked "updated" (.str now))) else r),
     store.nextId⟩ := by
  have hrh : runHooks (usersApiConfig requests).columns
      (parseBody (usersApiConfig requests).writeableColumns body) = some hooked := by
    rw [show (usersApiConfig requests).columns = userColumns requests from rfl,
      show (usersApiConfig requests).writeableColumns = ["name", "email"] from rfl,
      runHooks_userColumns, hhook]
    rfl
  unfold handleRequest
  rw [show routeOf ⟨.put, some id, qs, ql, body, tok⟩ = some (.updateOp id) from rfl]
  dsimp only
  rw [if_pos (show authOk (usersApiConfig requests).authentication tok = true from rfl)]
  rw [hrow]
  dsimp only
  rw [if_pos hvalid, hrh]
  dsimp only
  rw [show (usersApiConfig requests).columns = userColumns requests from rfl,
    applyStamps_update_userColumns]

/-- A failing update validation leaves the backend untouched. -/
theorem update_store_eq_invalid (requests : Requests) (store : Store) (id : Nat)
    (row : Data) (body : Data) (qs ql : Option Nat) (tok : Option String) (now : String)
    (hrow : findRow store id = some row)
    (hvalid : validateBody .update (usersApiConfig requests) body ≠ []) :
    (handleRequest (usersApiConfig requests) store
      ⟨.put, some id, qs, ql, body, tok⟩ now).store = store := by
  unfold handleRequest
  rw [show routeOf ⟨.put, some id, qs, ql, body, tok⟩ = some (.updateOp id) from rfl]
  dsimp only
  rw [if_pos (show authOk (usersApiConfig requests).authentication tok = true from rfl)]
  rw [hrow]
  dsimp only
  rw [if_neg hvalid]

/-- When update validation passes, the email hook succeeds on the parsed
body, and its output only rewrites body keys and the four enrichment
fields (those only when the body carries an email). -/
theorem hook_of_valid (requests : Requests) (body : Data)
    (hvalid : validateBody .update (usersApiConfig requests) body = []) :
    ∃ hooked tr,
      businessEmailPreSaveT requests "email" (parseBody ["name", "email"] body)
        = some (hooked, tr) ∧
      (∀ k, hasKey body k = false →
        k ≠ "city" → k ≠ "state" → k ≠ "country" → k ≠ "age" →
        lastVal hooked k = none) ∧
      (hasKey body "email" = false →
        ∀ k, hasKey body k = false → lastVal hooked k = none) := by
  cases hg : getVal body "email" with
  | none =>
    have hke : hasKey body "email" = false := hasKey_false_of_getVal_none _ _ hg
    have hkp : hasKey (parseBody ["name", "email"] body) "email" = false :=
      hasKey_parseBody_false_of_false _ _ _ hke
    refine ⟨parseBody ["name", "email"] body, [], ?_, ?_, ?_⟩
    · simp [businessEmailPreSaveT, hkp]
    · intro k hk _ _ _ _
      exact lastVal_eq_none_of_hasKey_false _ _ (hasKey_parseBody_false_of_false _ _ _ hk)
    · intro _ k hk
      exact lastVal_eq_none_of_hasKey_false _ _ (hasKey_parseBody_false_of_false _ _ _ hk)
  | some v =>
    obtain ⟨s, rfl⟩ := validate_pass_email_str requests body .update v hvalid hg
    have hgp : getVal (parseBody ["name", "email"] body) "email" = some (.str s) := by
      rw [getVal_parseBody_mem ["name", "email"] body "email" rfl]
      exact hg
    have hketrue : hasKey body "email" = true := hasKey_true_of_getVal_some _ _ _ hg
    by_cases hb : pyStrip s = ""
    · refine ⟨mergeData (parseBody ["name", "email"] body)
        [("city", .str ""), ("state", .str ""), ("country", .str ""), ("age", .str "")],
        [], ?_, ?_, ?_⟩
      · rw [preSaveT_str _ _ _ hgp, if_pos hb]
      · intro k hk hc hs hco ha
        rw [lastVal_mergeFour_other _ _ _ _ _ _ hc hs hco ha]
        exact lastVal_eq_none_of_hasKey_false _ _ (hasKey_parseBody_false_of_false _ _ _ hk)
      · intro habs
        rw [hketrue] at habs
        cases habs
    · refine ⟨mergeData (parseBody ["name", "email"] body)
        [("city", .str (requests (pyStrip s)).location.city),
         ("state", .str (requests (pyStrip s)).location.state),
         ("country", .str (requests (pyStrip s)).location.country),
         ("age", .int (requests (pyStrip s)).age)],
        [pyStrip s], ?_, ?_, ?_⟩
      · rw [preSaveT_str _ _ _ hgp, if_neg hb]
      · intro k hk hc hs hco ha
        rw [lastVal_mergeFour_other _ _ _ _ _ _ hc hs hco ha]
        exact lastVal_eq_none_of_hasKey_false _ _ (hasKey_parseBody_false_of_false _ _ _ hk)
      · intro habs
        rw [hketrue] at habs
        cases habs

/-- C2 counterexample: an update request whose id does not exist, with a
body a writeable column's validator rejects, responds `notFound`, not
`input_errors` (the store is still untouched): per the pipeline, NotFound
short-circuits before VALIDATE. -/
theorem validate_abort_counterexample :
    columnError .update (plainColumn "name" nameValidate)
      [(("name" : String), Value.int 5)] ≠ "" ∧
    (usersApiConfig mockRequests).writeableColumns.contains
      (plainColumn "name" nameValidate).name = true ∧
    ((handleRequest (usersApiConfig mockRequests) (seedStore "T0")
        ⟨.put, some 99, none, none, [("name", Value.int 5)], none⟩ "T0").response =
      .notFound ∧
     (handleRequest (usersApiConfig mockRequests) (seedStore "T0")
        ⟨.put, some 99, none, none, [("name", Value.int 5)], none⟩ "T0").store =
      seedStore "T0") :=
  ⟨by decide, rfl, rfl, rfl⟩

/-- C3 counterexample: the repository's own update test body omits `city`,
yet the update changes `city` from null to the enrichment value — a column
omitted from the body does not always keep its persisted value. -/
theorem update_omitted_column_counterexample :
    hasKey [(("name" : String), Value.str "CMan"),
      ("email", Value.str "cman@example2.com")] "city" = false ∧
    (findRow (seedStore "T0") 1).map (fun r => getVal r "city") = some none ∧
    (findRow (handleRequest (usersApiConfig mockRequests) (seedStore "T0")
        ⟨.put, some 1, none, none,
         [("name", Value.str "CMan"), ("email", Value.str "cman@example2.com")], none⟩
        "T0").store 1).map (fun r => getVal r "city") =
      some (some (Value.str "cool city")) :=
  ⟨rfl, rfl, rfl⟩

/-- C3 (amended): for every update request against an existing record,
every column omitted from the body keeps its pre-existing persisted value
except the engine-stamped `updated` timestamp and — only when the body
contains `email` — the hook-recomputed `city`, `state`, `country` and
`age`; and applying the same partial update twice with the same injected
clock yields the same final persisted state. -/
theorem update_omitted_columns_semantics (requests : Requests) (store : Store)
    (id : Nat) (row : Data) (body : Data)
    (qs ql : Option Nat) (tok : Option String) (now : String)
    (hrow : findRow store id = some row) :
    (∃ row2, findRow (handleRequest (usersApiConfig requests) store
        ⟨.put, some id, qs, ql, body, tok⟩ now).store id = some row2 ∧
      (∀ k, hasKey body k = false → k ≠ "updated" →
        k ≠ "city" → k ≠ "state" → k ≠ "country" → k ≠ "age" →
        getVal row2 k = getVal row k) ∧
      (hasKey body "email" = false →
        ∀ k, hasKey body k = false → k ≠ "updated" → getVal row2 k = getVal row k)) ∧
    ((handleRequest (usersApiConfig requests)
        (handleRequest (usersApiConfig requests) store
          ⟨.put, some id, qs, ql, body, tok⟩ now).store
        ⟨.put, some id, qs, ql, body, tok⟩ now).store.nextId =
      (handleRequest (usersApiConfig requests) store
        ⟨.put, some id, qs, ql, body, tok⟩ now).store.nextId ∧
     (handleRequest (usersApiConfig requests)
        (handleRequest (usersApiConfig requests) store
          ⟨.put, some id, qs, ql, body, tok⟩ now).store
        ⟨.put, some id, qs, ql, body, tok⟩ now).store.rows.map Prod.fst =
      (handleRequest (usersApiConfig requests) store
        ⟨.put, some id, qs, ql, body, tok⟩ now).store.rows.map Prod.fst ∧
     ∀ j k, (findRow (handleRequest (usersApiConfig requests)
          (handleRequest (usersApiConfig requests) store
            ⟨.put, some id, qs, ql, body, tok⟩ now).store
          ⟨.put, some id, qs, ql, body, tok⟩ now).store j).map (fun r => getVal r k) =
        (findRow (handleRequest (usersApiConfig requests) store
          ⟨.put, some id, qs, ql, body, tok⟩ now).store j).map (fun r => getVal r k)) := by
  by_cases herrs : validateBody .update (usersApiConfig requests) body = []
  · obtain ⟨hooked, tr, hhook, hall, hnoem⟩ := hook_of_valid requests body herrs
    have h1 := update_store_eq requests store id row body qs ql tok now hrow herrs
      hooked tr hhook
    have hfind1 : findRow (handleRequest (usersApiConfig requests) store
        ⟨.put, some id, qs, ql, body, tok⟩ now).store id =
        some (mergeData row (setVal hooked "updated" (.str now))) := by
      rw [h1]
      unfold findRow
      dsimp only
      rw [find?_update_self _ _ _ (findRow_isSome _ _ _ hrow)]
      rfl
    have h2 := update_store_eq requests
      (handleRequest (usersApiConfig requests) store
        ⟨.put, some id, qs, ql, body, tok⟩ now).store id
      (mergeData row (setVal hooked "updated" (.str now))) body qs ql tok now hfind1
      herrs hooked tr hhook
    constructor
    · refine ⟨mergeData row (setVal hooked "updated" (.str now)), hfind1, ?_, ?_⟩
      · intro k hk hup hc hs hco ha
        rw [getVal_mergeData, lastVal_setVal_ne _ _ _ _ hup, hall k hk hc hs hco ha]
        rfl
      · intro hem k hk hup
        rw [getVal_mergeData, lastVal_setVal_ne _ _ _ _ hup, hnoem hem k hk]
        rfl
    · refine ⟨?_, ?_, ?_⟩
      · rw [h2, h1]
      · rw [h2, h1]
        dsimp only
        rw [map_fst_update, map_fst_update]
      · intro j k
        by_cases hj : j = id
        · subst hj
          have hfind2 : findRow (handleRequest (usersApiConfig requests)
              (handleRequest (usersApiConfig requests) store
                ⟨.put, some j, qs, ql, body, tok⟩ now).store
              ⟨.put, some j, qs, ql, body, tok⟩ now).store j =
              some (mergeData (mergeData row (setVal hooked "updated" (.str now)))
                (setVal hooked "updated" (.str now))) := by
            rw [h2]
            unfold findRow
            dsimp only
            rw [find?_update_self _ _ _ (findRow_isSome _ _ _ hfind1)]
            rfl
          rw [hfind2, hfind1]
          dsimp only [Option.map]
          rw [getVal_mergeData_idem]
        · rw [h2]
          have : findRow ⟨(handleRequest (usersApiConfig requests) store
              ⟨.put, some id, qs, ql, body, tok⟩ now).store.rows.map
                (fun r => if r.1 = id then
                  (id, mergeData (mergeData row (setVal hooked "updated" (.str now)))
                    (setVal hooked "updated" (.str now))) else r),
              (handleRequest (usersApiConfig requests) store
                ⟨.put, some id, qs, ql, body, tok⟩ now).store.nextId⟩ j =
              findRow (handleRequest (usersApiConfig requests) store
                ⟨.put, some id, qs, ql, body, tok⟩ now).store j := by
            unfold findRow
            dsimp only
            rw [find?_update_ne _ _ _ _ hj]
          rw [this]
  · have h1 := update_store_eq_invalid requests store id row body qs ql tok now hrow herrs
    constructor
    · refine ⟨row, ?_, ?_, ?_⟩
      · rw [h1]
        exact hrow
      · intro k _ _ _ _ _ _
        rfl
      · intro _ k _ _
        rfl
    · rw [h1]
      have h2 := update_store_eq_invalid requests store id row body qs ql tok now hrow herrs
      rw [h2]
      exact ⟨rfl, rfl, fun j k => rfl⟩

theorem update_omitted_columns_semantics_witness :
    findRow (seedStore "T0") 1 = some (seedRow "T0") ∧
    ((∃ row2, findRow (handleRequest (usersApiConfig mockRequests) (seedStore "T0")
        ⟨.put, some 1, none, none, [("name", Value.str "CMan")], none⟩ "T0").store 1 =
          some row2 ∧
      (∀ k, hasKey [(("name" : String), Value.str "CMan")] k = false → k ≠ "updated" →
        k ≠ "city" → k ≠ "state" → k ≠ "country" → k ≠ "age" →
        getVal row2 k = getVal (seedRow "T0") k) ∧
      (hasKey [(("name" : String), Value.str "CMan")] "email" = false →
        ∀ k, hasKey [(("name" : String), Value.str "CMan")] k = false → k ≠ "updated" →
          getVal row2 k = getVal (seedRow "T0") k)) ∧
     ((handleRequest (usersApiConfig mockRequests)
        (handleRequest (usersApiConfig mockRequests) (seedStore "T0")
          ⟨.put, some 1, none, none, [("name", Value.str "CMan")], none⟩ "T0").store
        ⟨.put, some 1, none, none, [("name", Value.str "CMan")], none⟩ "T0").store.nextId =
      (handleRequest (usersApiConfig mockRequests) (seedStore "T0")
        ⟨.put, some 1, none, none, [("name", Value.str "CMan")], none⟩ "T0").store.nextId ∧
      (handleRequest (usersApiConfig mockRequests)
        (handleRequest (usersApiConfig mockRequests) (seedStore "T0")
          ⟨.put, some 1, none, none, [("name", Value.str "CMan")], none⟩ "T0").store
        ⟨.put, some 1, none, none, [("name", Value.str "CMan")], none⟩
          "T0").store.rows.map Prod.fst =
      (handleRequest (usersApiConfig mockRequests) (seedStore "T0")
        ⟨.put, some 1, none, none, [("name", Value.str "CMan")], none⟩
          "T0").store.rows.map Prod.fst ∧
      ∀ j k, (findRow (handleRequest (usersApiConfig mockRequests)
          (handleRequest (usersApiConfig mockRequests) (seedStore "T0")
            ⟨.put, some 1, none, none, [("name", Value.str "CMan")], none⟩ "T0").store
          ⟨.put, some 1, none, none, [("name", Value.str "CMan")], none⟩ "T0").store j).map
            (fun r => getVal r k) =
        (findRow (handleRequest (usersApiConfig mockRequests) (seedStore "T0")
          ⟨.put, some 1, none, none, [("name", Value.str "CMan")], none⟩ "T0").store j).map
            (fun r => getVal r k))) :=
  ⟨rfl, update_omitted_columns_semantics mockRequests (seedStore "T0") 1 (seedRow "T0")
    [("name", Value.str "CMan")] none none none "T0" rfl⟩

end ClearSkies
